import Mathlib

/-!
Shallow embedding of the `metadata_reader` package (connectors for S3,
Azure, SharePoint and the `FileMetadata` record model) together with
theorems settling the specification claims.

Conventions of the embedding:
* Python `dict[str, str]` / `dict[str, Any]` values are modelled as
  insertion-ordered association lists `List (String × α)`; `d.get(k)` is
  `dictLookup`, `d.copy(); d.update(other)` is `dictUpdate`.
* Python string truthiness (`if not owner`) is modelled by `pyFalsy` on
  `Option String` (`None` and `""` are falsy), and `x or y` by `pyOr`.
* A remote call wrapped in `try/except` is modelled by passing its
  outcome as an `Except Unit α` (or `Option α`) argument; the `except`
  branch is the `.error` case.
* Python `str` is modelled as Lean `String` except in the path-parsing
  functions, where `List Char` is used so that slicing is `List.drop`.
-/

/-- Python dictionary with string keys, as an insertion-ordered
association list. -/
def Dict (α : Type) : Type := List (String × α)

/-- Python `d.get(k)`: value of the first entry with key `k`. -/
def dictLookup {α : Type} (d : List (String × α)) (k : String) : Option α :=
  match d with
  | [] => none
  | (k', v) :: rest => if k' = k then some v else dictLookup rest k

/-- Python `base.copy(); base.update(other)`: keys already in `base` keep their
position and take `other`'s value; keys only in `other` are appended in
`other`'s order. -/
def dictUpdate {α : Type} (base other : List (String × α)) : List (String × α) :=
  base.map (fun p =>
    match dictLookup other p.1 with
    | some v => (p.1, v)
    | none => p)
  ++ other.filter (fun p => (dictLookup base p.1).isNone)

/-- Python truthiness of an optional string: `None` and `""` are falsy. -/
def pyFalsy (x : Option String) : Bool :=
  match x with
  | none => true
  | some s => s = ""

/-- Python `x or y` on optional strings: `y` when `x` is falsy. -/
def pyOr (x y : Option String) : Option String :=
  if pyFalsy x then y else x

/-- JSON-serializable Python value, as produced by `FileMetadata.to_dict`
(`None`, strings, ints, nested string-keyed dicts). -/
inductive Val : Type where
  | null : Val
  | str : String → Val
  | int : Int → Val
  | dict : List (String × Val) → Val

/-- The `v is None` test used by the `to_dict` comprehension filter. -/
def Val.isNull : Val → Bool
  | .null => true
  | _ => false

/-- Model of `metadata_reader.models.metadata.FileMetadata`. Datetimes are kept
abstract as their ISO-format strings (only `isoformat` is ever applied
to them). -/
structure FileMetadata : Type where
  path : String
  type : String
  size_bytes : Nat
  last_modified : Option String
  source : String
  owner : Option String := none
  last_accessed : Option String := none
  content_type : Option String := none
  etag : Option String := none
  tags : List (String × String) := []
  extra_metadata : List (String × Val) := []

/-- Python `x.isoformat() if x else None` (a datetime is always truthy). -/
def isoOrNull (x : Option String) : Val :=
  match x with
  | some s => Val.str s
  | none => Val.null

/-- Constructor `Val.str` applied to an optional string, `None` becoming `null`. -/
def strOrNull (x : Option String) : Val :=
  match x with
  | some s => Val.str s
  | none => Val.null

/-- The `base_dict` literal built by `FileMetadata.to_dict` (note the
key `"tag"`, not `"tags"`). -/
def FileMetadata.baseDict (m : FileMetadata) : List (String × Val) :=
  [ ("path", Val.str m.path),
    ("type", Val.str m.type),
    ("size_bytes", Val.int (m.size_bytes : Int)),
    ("last_modified", isoOrNull m.last_modified),
    ("source", Val.str m.source),
    ("owner", strOrNull m.owner),
    ("last_accessed", isoOrNull m.last_accessed),
    ("content_type", strOrNull m.content_type),
    ("etag", strOrNull m.etag),
    ("tag", Val.dict (m.tags.map (fun p => (p.1, Val.str p.2)))) ]

/-- Model of `FileMetadata.to_dict`: build `base_dict`, flatten `extra_metadata`
into it with `update` when non-empty, then drop entries whose value is
`None`. -/
def FileMetadata.to_dict (m : FileMetadata) : List (String × Val) :=
  let merged :=
    if m.extra_metadata.isEmpty then m.baseDict
    else dictUpdate m.baseDict m.extra_metadata
  merged.filter (fun p => ! p.2.isNull)

/-! Embedding of the S3 connector (`metadata_reader/connectors/s3.py`). -/

/-- An S3 object as returned by `list_objects_v2` pages: its key and
its `Size`. -/
structure S3Obj : Type where
  key : String
  size : Nat
  deriving DecidableEq

/-- Python `str.lower()` (ASCII case fold suffices for the reserved
keys involved). -/
def strLower (s : String) : String := ⟨s.data.map Char.toLower⟩

/-- Python `str.strip()`: surrounding whitespace removed. -/
def strStrip (s : String) : String :=
  ⟨((s.data.dropWhile Char.isWhitespace).reverse.dropWhile
    Char.isWhitespace).reverse⟩

/-- The comprehension `{t["Key"].strip(): t["Value"] for t in tag_resp.get("TagSet", [])}`:
a dict comprehension, keys stripped, a later duplicate overwriting an
earlier one in place. -/
def tagsFromTagSet (l : List (String × String)) : List (String × String) :=
  l.foldl (fun d p => dictUpdate d [(strStrip p.1, p.2)]) []

/-- The `S3Connector` context-data step of `list_objects` / `get_metadata`:
bucket tags from `get_bucket_tagging`, degraded to `{}` when the call
raises. -/
def s3BucketTags (fetch : Except Unit (List (String × String))) :
    List (String × String) :=
  match fetch with
  | .ok tagSet => tagsFromTagSet tagSet
  | .error _ => []

/-- Model of `S3Connector._calculate_folder_size`: iterate the paginator's pages
and sum the `Size` of every object in each page's `Contents`. -/
def s3CalculateFolderSize (pages : List (List S3Obj)) : Nat :=
  pages.foldl (fun total page =>
    page.foldl (fun t o => t + o.size) total) 0

/-- Owner of a file record in `S3Connector.list_objects`: the
`FetchOwner` display name (or ID) when present, else the bucket tag
`"owner"` looked up by that exact key. -/
def s3FileOwner (ownerDisplay : Option String)
    (bucketTags : List (String × String)) : Option String :=
  if pyFalsy ownerDisplay ∧ (dictLookup bucketTags "owner").isSome then
    dictLookup bucketTags "owner"
  else ownerDisplay

/-- File record appended by `S3Connector.list_objects` for one entry of
`response["Contents"]`. -/
def s3FileRecord (bucket : String) (bucketTags : List (String × String))
    (ownerDisplay : Option String) (obj : S3Obj)
    (lastModified : Option String) (etag : Option String) : FileMetadata :=
  { path := "s3://" ++ bucket ++ "/" ++ obj.key
    type := "file"
    size_bytes := obj.size
    owner := s3FileOwner ownerDisplay bucketTags
    last_modified := lastModified
    last_accessed := none
    source := "s3"
    tags := bucketTags
    etag := etag }

/-- Directory record appended by `S3Connector.list_objects` for one
entry of `response["CommonPrefixes"]`; `paginate k` is the sequence of
pages the paginator returns for `Prefix=k`. -/
def s3FolderRecord (bucket : String) (bucketTags : List (String × String))
    (paginate : String → List (List S3Obj)) (folderKey : String) : FileMetadata :=
  { path := "s3://" ++ bucket ++ "/" ++ folderKey
    type := "directory"
    size_bytes := s3CalculateFolderSize (paginate folderKey)
    owner := none
    last_modified := none
    source := "s3"
    tags := bucketTags }

/-- One `list_objects_v2(..., Delimiter='/')` response: the file entries
(`Contents`, with the `FetchOwner` owner and timestamps already read
off) and the `CommonPrefixes`. -/
structure S3ListResponse : Type where
  contents : List (S3Obj × Option String × Option String × Option String)
  commonPrefixes : List String

/-- Single-bucket body of `S3Connector.list_objects`: bucket tags
(degrading to `{}`), then one file record per `Contents` entry whose key
differs from the requested prefix, then one directory record per
`CommonPrefixes` entry. -/
def s3ListObjects (bucket : String) (pfx : String)
    (tagFetch : Except Unit (List (String × String)))
    (resp : S3ListResponse)
    (paginate : String → List (List S3Obj)) : List FileMetadata :=
  let bucketTags := s3BucketTags tagFetch
  ((resp.contents.filter (fun e => ! (e.1.key = pfx))).map (fun e =>
    s3FileRecord bucket bucketTags e.2.1 e.1 e.2.2.1 e.2.2.2))
  ++ resp.commonPrefixes.map (s3FolderRecord bucket bucketTags paginate)

/-- Model of `S3Connector.list_buckets`: names on success, `[]` when the call
raises. -/
def s3ListBuckets (fetch : Except Unit (List String)) : List String :=
  match fetch with
  | .ok names => names
  | .error _ => []

/-- Discovery loop of `S3Connector.list_objects` (no bucket configured):
scan every discovered bucket, extending `all_files` with each bucket's
records and swallowing a bucket whose scan raises. -/
def s3DiscoveryScan (buckets : List String)
    (scan : String → Except Unit (List FileMetadata)) : List FileMetadata :=
  buckets.foldl (fun allFiles b =>
    match scan b with
    | .ok records => allFiles ++ records
    | .error _ => allFiles) []

/-- Model of `S3Connector._parse_path` over `List Char`: strip the
`s3://{bucket}/` scheme when present, else return the path unchanged. -/
def s3ParsePath (bucket path : List Char) : List Char :=
  let pfx := "s3://".toList ++ bucket ++ "/".toList
  if pfx.isPrefixOf path then path.drop pfx.length else path

/-- Model of `S3Connector.get_metadata`: `head_object` response fields plus
bucket tags, object tags (overriding bucket tags) and the ACL owner,
each degrading independently when its call raises. -/
def s3GetMetadata (path : String) (contentLength : Nat)
    (lastModified : Option String) (contentType : Option String)
    (etag : Option String)
    (bucketTagFetch objTagFetch : Except Unit (List (String × String)))
    (aclOwnerFetch : Except Unit (Option String))
    (storageClass versionId metaVal : Val) : FileMetadata :=
  let bucketTags := s3BucketTags bucketTagFetch
  let tags :=
    match objTagFetch with
    | .ok tagSet => dictUpdate bucketTags (tagsFromTagSet tagSet)
    | .error _ => bucketTags
  let ownerDisplay :=
    match aclOwnerFetch with
    | .ok o => o
    | .error _ => none
  { path := path
    type := "file"
    size_bytes := contentLength
    owner := ownerDisplay
    last_modified := lastModified
    last_accessed := none
    source := "s3"
    content_type := contentType
    etag := etag
    tags := tags
    extra_metadata :=
      [ ("storage_class", storageClass),
        ("version_id", versionId),
        ("metadata", metaVal) ] }

/-! Embedding of the SharePoint connector (`metadata_reader/connectors/sharepoint.py`). -/

/-- A Graph drive item: a file with a `size`, or a folder whose
children arrive in pages (`value` arrays chained by `@odata.nextLink`).
A page is `(fetched, items)`: `fetched` is whether `requests.get` for
that page returned status 200 without raising; `items` are the children
the backend holds behind that cursor (seen by the code only when the
fetch succeeds). -/
inductive SPItem : Type where
  | file : Nat → SPItem
  | folder : List (Bool × List SPItem) → SPItem

mutual
/-- Model of `SharePointConnector._calculate_folder_size` applied to one
folder's pages: per successfully fetched page, add each file's size
and recurse into each folder; a page whose fetch fails (non-200 status
or an exception) hits `break`, returning the partial sum collected so
far and never requesting the remaining pages. -/
def spCalculateFolderSize : List (Bool × List SPItem) → Nat
  | [] => 0
  | (false, _) :: _ => 0
  | (true, page) :: rest => spPageSize page + spCalculateFolderSize rest

/-- Contribution of one fetched page of children to
`_calculate_folder_size` (the recursive call for a child folder cannot
raise: it degrades to its own partial sum). -/
def spPageSize : List SPItem → Nat
  | [] => 0
  | SPItem.file s :: items => s + spPageSize items
  | SPItem.folder pages :: items => spCalculateFolderSize pages + spPageSize items
end

mutual
/-- Sizes of all file-kind descendants reachable from a folder's pages,
fetched or not (the specification's notion of a directory's descendant
files). -/
def spDescendantSizes : List (Bool × List SPItem) → List Nat
  | [] => []
  | (_, page) :: rest => spPageSizes page ++ spDescendantSizes rest

/-- Sizes of all file-kind descendants within one page of children. -/
def spPageSizes : List SPItem → List Nat
  | [] => []
  | SPItem.file s :: items => s :: spPageSizes items
  | SPItem.folder pages :: items => spDescendantSizes pages ++ spPageSizes items
end

mutual
/-- Whether every page fetch in a folder's subtree succeeds. -/
def spAllFetchesOk : List (Bool × List SPItem) → Bool
  | [] => true
  | (fetched, page) :: rest => fetched && spPageOk page && spAllFetchesOk rest

/-- Whether every page fetch under each item of one page succeeds. -/
def spPageOk : List SPItem → Bool
  | [] => true
  | SPItem.file _ :: items => spPageOk items
  | SPItem.folder pages :: items => spAllFetchesOk pages && spPageOk items
end

/-- Record built by `SharePointConnector._map_item_to_metadata`: kind
`directory` when the Graph item has a `folder` facet, else `file`; a
folder's size is the passed `folder_size_override`. -/
def spMapItemToMetadata (siteId driveId name : String) (item : SPItem)
    (user : Option String) (lastModified : Option String)
    (etag : Option String) : FileMetadata :=
  { path := "sharepoint://" ++ siteId ++ "/" ++ driveId ++ "/" ++ name
    type := match item with | SPItem.folder _ => "directory" | SPItem.file _ => "file"
    size_bytes := match item with
      | SPItem.folder pages => spCalculateFolderSize pages
      | SPItem.file s => s
    last_modified := lastModified
    source := "sharepoint"
    owner := user
    etag := etag }

/-- Discovery loop of `SharePointConnector.list_objects` (no site
configured): scan every discovered site, swallowing a site whose scan
raises. -/
def spDiscoveryScan (sites : List String)
    (scan : String → Except Unit (List FileMetadata)) : List FileMetadata :=
  sites.foldl (fun allFiles s =>
    match scan s with
    | .ok records => allFiles ++ records
    | .error _ => allFiles) []

/-! Embedding of the base connector (`metadata_reader/connectors/base.py`). -/

/-- Model of `BaseConnector._get_owner_from_tags`: first value whose key,
stripped and lowercased, equals `"owner"`; `None` when no key matches
(or the map is empty). -/
def getOwnerFromTags (tags : List (String × String)) : Option String :=
  match tags with
  | [] => none
  | (k, v) :: rest =>
    if strLower (strStrip k) = "owner" then some v else getOwnerFromTags rest

/-! Embedding of the Azure connector (`metadata_reader/connectors/azure.py`). -/

/-- Owner chain of `AzureConnector.get_metadata`. `owner` starts at
`None`; the POSIX ACL step is skipped (`get_access_control` is
deliberately not called); then blob index tags, container metadata and
account tags are consulted in turn, each only while the current owner
is falsy or the `$superuser` sentinel, each read degrading silently on
failure (`none` outcome). -/
def azureGetMetadataOwner (blobTags containerMeta accountTags :
    Option (List (String × String))) : Option String :=
  let owner : Option String := none
  let owner :=
    if pyFalsy owner ∨ owner = some "$superuser" then
      match blobTags with
      | some t => pyOr (pyOr (dictLookup t "owner") (dictLookup t "Owner")) owner
      | none => owner
    else owner
  let owner :=
    if pyFalsy owner ∨ owner = some "$superuser" then
      match containerMeta with
      | some t => pyOr (pyOr (dictLookup t "owner") (dictLookup t "Owner")) owner
      | none => owner
    else owner
  let owner :=
    if pyFalsy owner ∨ owner = some "$superuser" then
      match accountTags with
      | some t => pyOr (pyOr (dictLookup t "owner") (dictLookup t "Owner")) owner
      | none => owner
    else owner
  owner

/-- Owner chain for a file record in `AzureConnector.list_objects`:
blob tags, then blob metadata, then account tags (each under keys
`'owner'`/`'Owner'`); when the data-lake client is available and the
`get_access_control` call succeeds (`aclOwner = some a`), the ACL owner
overrides the tag-derived owner with no sentinel check. -/
def azureListObjectsOwner (blobTags blobMeta accountTags :
    List (String × String)) (aclOwner : Option (Option String)) : Option String :=
  let owner :=
    pyOr (dictLookup blobTags "owner") (pyOr (dictLookup blobTags "Owner")
      (pyOr (dictLookup blobMeta "owner") (pyOr (dictLookup blobMeta "Owner")
        (pyOr (dictLookup accountTags "owner") (dictLookup accountTags "Owner")))))
  match aclOwner with
  | some a => pyOr a owner
  | none => owner

/-- The authority-level tag context visible to one blob during
`AzureConnector.list_objects`: the container's own metadata map is part
of the backend state but is never fetched by `list_objects`. -/
structure AzureBlobCtx : Type where
  accountTags : List (String × String)
  containerMeta : List (String × String)
  blobTags : List (String × String)

/-- Merged `tags` of a file record in `AzureConnector.list_objects`:
`final_tags = account_tags.copy()`, then `update(blob_tags)` when the
blob has tags; the container level is not consulted. -/
def azureListFileTags (ctx : AzureBlobCtx) : List (String × String) :=
  if ctx.blobTags.isEmpty then ctx.accountTags
  else dictUpdate ctx.accountTags ctx.blobTags

/-- Synthetic per-discovered-root record appended by the discovery loop
of `AzureConnector.list_objects` for each storage account. -/
def azureAccountRecord (name : String) (tags : List (String × String))
    (location resourceGroup : String) : FileMetadata :=
  { path := "azure://" ++ name
    type := "storage_account"
    size_bytes := 0
    last_modified := none
    source := "azure"
    owner := pyOr (dictLookup tags "owner") (dictLookup tags "Owner")
    tags := tags
    extra_metadata :=
      [ ("location", Val.str location),
        ("resource_group", Val.str resourceGroup) ] }

/-- File record appended by `AzureConnector.list_objects` for a blob. -/
def azureFileRecord (container name : String) (size : Nat)
    (ctx : AzureBlobCtx) (blobMeta : List (String × String))
    (aclOwner : Option (Option String)) (lastModified etag : Option String) :
    FileMetadata :=
  { path := "azure://" ++ container ++ "/" ++ name
    type := "file"
    size_bytes := size
    owner := azureListObjectsOwner ctx.blobTags blobMeta ctx.accountTags aclOwner
    last_modified := lastModified
    source := "blob_storage"
    etag := etag
    tags := azureListFileTags ctx }

/-- Directory record appended by `AzureConnector.list_objects` for a
`BlobPrefix`, its size computed by `_calculate_folder_size` (the sum of
the sizes of the blobs under the prefix). -/
def azureDirRecord (container name : String) (descendants : List Nat)
    (folderOwner : Option String) (folderTags : List (String × String))
    (lastModified : Option String) : FileMetadata :=
  { path := "azure://" ++ container ++ "/" ++ name
    type := "directory"
    size_bytes := descendants.sum
    owner := folderOwner
    last_modified := lastModified
    source := "blob_storage"
    tags := folderTags }

/-- Model of `AzureConnector.list_storage_accounts`: account descriptors on
success, `[]` when the management call raises. -/
def azureListStorageAccounts (fetch : Except Unit (List String)) : List String :=
  match fetch with
  | .ok names => names
  | .error _ => []

/-- Discovery loop of `AzureConnector.list_objects` (no container
configured): per discovered account, the whole per-account body runs
under one `try`, its records extending `all_files`, an account whose
body raises being swallowed. -/
def azureDiscoveryScan (accounts : List String)
    (perAccount : String → Except Unit (List FileMetadata)) : List FileMetadata :=
  accounts.foldl (fun allFiles a =>
    match perAccount a with
    | .ok records => allFiles ++ records
    | .error _ => allFiles) []

/-! Spec-side serialization inverse. -/

/-- The top-level keys `to_dict` reserves for the fixed fields. -/
def baseKeys : List String :=
  [ "path", "type", "size_bytes", "last_modified", "source", "owner",
    "last_accessed", "content_type", "etag", "tag" ]

/-- Read a string out of a `Val`. -/
def valStr : Val → Option String
  | .str s => some s
  | _ => none

/-- Read a non-negative integer out of a `Val`. -/
def valNat : Val → Option Nat
  | .int i => if 0 ≤ i then some i.toNat else none
  | _ => none

/-- Read a string-to-string map out of the entries of a `Val.dict`. -/
def valTags : List (String × Val) → Option (List (String × String))
  | [] => some []
  | (k, .str s) :: rest => (valTags rest).map (fun ts => (k, s) :: ts)
  | _ => none

/-- Read an optional string field: missing means `None`. -/
def optStrField (d : List (String × Val)) (k : String) : Option (Option String) :=
  match dictLookup d k with
  | none => some none
  | some (.str s) => some (some s)
  | some _ => none

/-- Modelled from the spec: the repository serializes records but ships
no parser, while the spec's round-trip property requires one; this is
the inverse reader of the flat form — fixed fields by key, every key
outside `baseKeys` collected (in order) into `extra_metadata`. -/
def FileMetadata.from_dict (d : List (String × Val)) : Option FileMetadata := do
  let path ← (dictLookup d "path").bind valStr
  let ty ← (dictLookup d "type").bind valStr
  let size ← (dictLookup d "size_bytes").bind valNat
  let src ← (dictLookup d "source").bind valStr
  let tags ←
    match dictLookup d "tag" with
    | some (.dict tv) => valTags tv
    | _ => none
  let lastModified ← optStrField d "last_modified"
  let owner ← optStrField d "owner"
  let lastAccessed ← optStrField d "last_accessed"
  let contentType ← optStrField d "content_type"
  let etag ← optStrField d "etag"
  some
    { path := path
      type := ty
      size_bytes := size
      last_modified := lastModified
      source := src
      owner := owner
      last_accessed := lastAccessed
      content_type := contentType
      etag := etag
      tags := tags
      extra_metadata := d.filter (fun p => ! baseKeys.contains p.1) }

/-! Dictionary lemmas. -/

theorem dictLookup_append {α : Type} (l₁ l₂ : List (String × α)) (k : String) :
    dictLookup (l₁ ++ l₂) k = (dictLookup l₁ k).or (dictLookup l₂ k) := by
  induction l₁ with
  | nil => simp [dictLookup]
  | cons p rest ih =>
    obtain ⟨k', v⟩ := p
    by_cases h : k' = k <;> simp [dictLookup, h, ih]

theorem dictLookup_eq_none_of_ne {α : Type} {d : List (String × α)} {k : String}
    (h : ∀ p ∈ d, p.1 ≠ k) : dictLookup d k = none := by
  induction d with
  | nil => rfl
  | cons p rest ih =>
    simp only [dictLookup]
    rw [if_neg (h p (List.mem_cons_self p rest))]
    exact ih (fun q hq => h q (List.mem_cons_of_mem p hq))

theorem dictLookup_map_override {α : Type} (base other : List (String × α))
    (k : String) :
    dictLookup (base.map (fun p =>
      match dictLookup other p.1 with
      | some v => (p.1, v)
      | none => p)) k =
    match dictLookup base k with
    | some v => some ((dictLookup other k).getD v)
    | none => none := by
  induction base with
  | nil => rfl
  | cons p rest ih =>
    obtain ⟨k', v⟩ := p
    by_cases h : k' = k
    · subst h
      cases ho : dictLookup other k' <;>
        simp [dictLookup, ho]
    · cases ho : dictLookup other k' <;>
        simp [dictLookup, ho, h, ih]

theorem dictLookup_filter_isNone {α : Type} (base other : List (String × α))
    (k : String) :
    dictLookup (other.filter (fun p => (dictLookup base p.1).isNone)) k =
    if (dictLookup base k).isNone then dictLookup other k else none := by
  induction other with
  | nil => simp [dictLookup]
  | cons p rest ih =>
    obtain ⟨k', v⟩ := p
    by_cases h : k' = k
    · subst h
      cases hb : dictLookup base k' <;>
        simp [dictLookup, List.filter, hb, ih]
    · cases hb : dictLookup base k' <;>
        cases hbk : (dictLookup base k).isNone <;>
          simp [dictLookup, List.filter, hb, h, ih, hbk]

/-- Lookup in a Python-style `update`: the second map wins on
collision, and a key present in either map is present in the result. -/
theorem dictLookup_dictUpdate {α : Type} (base other : List (String × α))
    (k : String) :
    dictLookup (dictUpdate base other) k =
      (dictLookup other k).or (dictLookup base k) := by
  rw [dictUpdate, dictLookup_append, dictLookup_map_override,
    dictLookup_filter_isNone]
  cases hb : dictLookup base k <;> cases ho : dictLookup other k <;> simp

theorem mapOverride_eq_self {α : Type} {other : List (String × α)} :
    ∀ (l : List (String × α)), (∀ p ∈ l, dictLookup other p.1 = none) →
    l.map (fun p =>
      match dictLookup other p.1 with
      | some v => (p.1, v)
      | none => p) = l
  | [], _ => rfl
  | p :: rest, h => by
    have hp : dictLookup other p.1 = none := h p (List.mem_cons_self p rest)
    have hrest := mapOverride_eq_self rest
      (fun q hq => h q (List.mem_cons_of_mem p hq))
    simp only [List.map_cons, hp, hrest]

theorem dictUpdate_of_disjoint {α : Type} {base other : List (String × α)}
    (h₁ : ∀ p ∈ base, dictLookup other p.1 = none)
    (h₂ : ∀ p ∈ other, dictLookup base p.1 = none) :
    dictUpdate base other = base ++ other := by
  rw [dictUpdate]
  congr 1
  · exact mapOverride_eq_self base h₁
  · apply List.filter_eq_self.mpr
    intro p hp
    rw [h₂ p hp]
    rfl

/-! Folder-size and discovery-fold lemmas. -/

theorem s3PageFold (page : List S3Obj) :
    ∀ (total : Nat), page.foldl (fun t o => t + o.size) total =
      total + (page.map S3Obj.size).sum := by
  induction page with
  | nil => intro total; simp
  | cons o rest ih =>
    intro total
    simp only [List.foldl_cons, List.map_cons, List.sum_cons, ih]
    omega

theorem s3CalculateFolderSize_fold (pages : List (List S3Obj)) :
    ∀ (init : Nat), pages.foldl (fun total page =>
        page.foldl (fun t o => t + o.size) total) init =
      init + (pages.flatten.map S3Obj.size).sum := by
  induction pages with
  | nil => intro init; simp
  | cons page rest ih =>
    intro init
    simp only [List.foldl_cons]
    rw [s3PageFold page init, ih]
    simp only [List.flatten_cons, List.map_append, List.sum_append]
    omega

/-- The S3 `_calculate_folder_size` sums exactly the sizes of the objects on
all pages. -/
theorem s3CalculateFolderSize_eq (pages : List (List S3Obj)) :
    s3CalculateFolderSize pages = (pages.flatten.map S3Obj.size).sum := by
  rw [s3CalculateFolderSize, s3CalculateFolderSize_fold]
  omega

mutual
theorem spCalculateFolderSize_eq :
    ∀ (pages : List (Bool × List SPItem)), spAllFetchesOk pages = true →
      spCalculateFolderSize pages = (spDescendantSizes pages).sum
  | [], _ => by simp [spCalculateFolderSize, spDescendantSizes]
  | (false, page) :: rest, h => by
    simp [spAllFetchesOk] at h
  | (true, page) :: rest, h => by
    simp only [spAllFetchesOk, Bool.true_and, Bool.and_eq_true] at h
    rw [spCalculateFolderSize, spDescendantSizes, List.sum_append,
      spPageSize_eq page h.1, spCalculateFolderSize_eq rest h.2]

theorem spPageSize_eq :
    ∀ (items : List SPItem), spPageOk items = true →
      spPageSize items = (spPageSizes items).sum
  | [], _ => by simp [spPageSize, spPageSizes]
  | SPItem.file s :: items, h => by
    simp only [spPageOk] at h
    rw [spPageSize, spPageSizes, List.sum_cons, spPageSize_eq items h]
  | SPItem.folder pages :: items, h => by
    simp only [spPageOk, Bool.and_eq_true] at h
    rw [spPageSize, spPageSizes, List.sum_append,
      spCalculateFolderSize_eq pages h.1, spPageSize_eq items h.2]
end

mutual
theorem spCalculateFolderSize_le :
    ∀ (pages : List (Bool × List SPItem)),
      spCalculateFolderSize pages ≤ (spDescendantSizes pages).sum
  | [] => by simp [spCalculateFolderSize, spDescendantSizes]
  | (false, page) :: rest => by
    rw [spCalculateFolderSize]
    exact Nat.zero_le _
  | (true, page) :: rest => by
    rw [spCalculateFolderSize, spDescendantSizes, List.sum_append]
    exact Nat.add_le_add (spPageSize_le page) (spCalculateFolderSize_le rest)

theorem spPageSize_le :
    ∀ (items : List SPItem), spPageSize items ≤ (spPageSizes items).sum
  | [] => by simp [spPageSize, spPageSizes]
  | SPItem.file s :: items => by
    rw [spPageSize, spPageSizes, List.sum_cons]
    exact Nat.add_le_add_left (spPageSize_le items) s
  | SPItem.folder pages :: items => by
    rw [spPageSize, spPageSizes, List.sum_append]
    exact Nat.add_le_add (spCalculateFolderSize_le pages) (spPageSize_le items)
end

theorem s3DiscoveryScan_fold (scan : String → Except Unit (List FileMetadata)) :
    ∀ (buckets : List String) (acc : List FileMetadata),
      buckets.foldl (fun allFiles b =>
        match scan b with
        | .ok records => allFiles ++ records
        | .error _ => allFiles) acc =
      acc ++ (buckets.map (fun b => ((scan b).toOption.getD []))).flatten := by
  intro buckets
  induction buckets with
  | nil => intro acc; simp
  | cons b rest ih =>
    intro acc
    cases h : scan b <;>
      simp [h, ih, Except.toOption, List.append_assoc]

/-- The discovery loop collects, in order, the records of exactly the
buckets whose scan succeeds. -/
theorem s3DiscoveryScan_eq (buckets : List String)
    (scan : String → Except Unit (List FileMetadata)) :
    s3DiscoveryScan buckets scan =
      (buckets.map (fun b => ((scan b).toOption.getD []))).flatten := by
  rw [s3DiscoveryScan, s3DiscoveryScan_fold]
  rfl

/-- The SharePoint site loop has the same shape. -/
theorem spDiscoveryScan_eq (sites : List String)
    (scan : String → Except Unit (List FileMetadata)) :
    spDiscoveryScan sites scan =
      (sites.map (fun s => ((scan s).toOption.getD []))).flatten := by
  rw [spDiscoveryScan, s3DiscoveryScan_fold]
  rfl

theorem getOwnerFromTags_eq_none {tags : List (String × String)}
    (h : ∀ p ∈ tags, strLower (strStrip p.1) ≠ "owner") :
    getOwnerFromTags tags = none := by
  induction tags with
  | nil => rfl
  | cons p rest ih =>
    rw [getOwnerFromTags]
    rw [if_neg (h p (List.mem_cons_self p rest))]
    exact ih (fun q hq => h q (List.mem_cons_of_mem p hq))

/-! Theorems settling the claims. -/

/-- Claim C1 counterexample: a SharePoint folder whose second page
fetch fails.  `_calculate_folder_size` breaks with the partial sum of
the first page only (2), `_fetch_children` still emits the directory
record with that size, and the sum of all file-kind descendants is 5 —
so a directory record's `size_bytes` does not always equal the
descendant sum. -/
theorem c1_counterexample :
    (spMapItemToMetadata "site" "drive" "docs"
      (SPItem.folder [(true, [SPItem.file 2]), (false, [SPItem.file 3])])
      none none none).size_bytes = 2 ∧
    (spDescendantSizes
      [(true, [SPItem.file 2]), (false, [SPItem.file 3])]).sum = 5 ∧
    (spMapItemToMetadata "site" "drive" "docs"
      (SPItem.folder [(true, [SPItem.file 2]), (false, [SPItem.file 3])])
      none none none).size_bytes ≠
      (spDescendantSizes
        [(true, [SPItem.file 2]), (false, [SPItem.file 3])]).sum := by
  refine ⟨?_, ?_, ?_⟩ <;>
    simp [spMapItemToMetadata, spCalculateFolderSize, spPageSize,
      spDescendantSizes, spPageSizes]

/-- Claim C1 (amended): an S3 directory record's `size_bytes` equals
the sum of the sizes of all objects under the folder key over every
page of the listing, 0 with no descendants.  A SharePoint directory
record's size equals the sum of all file-kind descendants when every
page fetch in the folder's subtree succeeds; a failed page fetch makes
`_calculate_folder_size` break with the partial sum collected so far —
never exceeding the descendant sum — and that partial size is still
emitted in the directory record. -/
theorem c1_directory_size (bucket : String)
    (bucketTags : List (String × String)) (backend backend2 : List S3Obj)
    (paginate paginate2 : String → List (List S3Obj))
    (folderKey folderKey2 : String)
    (hpag : (paginate folderKey).flatten =
      backend.filter (fun o => folderKey.toList.isPrefixOf o.key.toList))
    (hpag2 : (paginate2 folderKey2).flatten =
      backend2.filter (fun o => folderKey2.toList.isPrefixOf o.key.toList))
    (hempty : backend2.filter
      (fun o => folderKey2.toList.isPrefixOf o.key.toList) = [])
    (spPages spPages2 : List (Bool × List SPItem))
    (hok : spAllFetchesOk spPages = true) :
    (s3FolderRecord bucket bucketTags paginate folderKey).size_bytes =
      ((backend.filter (fun o =>
        folderKey.toList.isPrefixOf o.key.toList)).map S3Obj.size).sum ∧
    (s3FolderRecord bucket bucketTags paginate2 folderKey2).size_bytes = 0 ∧
    spCalculateFolderSize spPages = (spDescendantSizes spPages).sum ∧
    spCalculateFolderSize spPages2 ≤ (spDescendantSizes spPages2).sum := by
  refine ⟨?_, ?_, spCalculateFolderSize_eq spPages hok,
    spCalculateFolderSize_le spPages2⟩
  · show s3CalculateFolderSize (paginate folderKey) = _
    rw [s3CalculateFolderSize_eq, hpag]
  · show s3CalculateFolderSize (paginate2 folderKey2) = 0
    rw [s3CalculateFolderSize_eq, hpag2, hempty]
    rfl

theorem c1_witness :
    ((s3FolderRecord "b" [] (fun _ =>
      [[S3Obj.mk "a/x" 3], [S3Obj.mk "a/y" 4]]) "a/").size_bytes =
      (([S3Obj.mk "a/x" 3, S3Obj.mk "a/y" 4, S3Obj.mk "b.txt" 5].filter
        (fun o => "a/".toList.isPrefixOf o.key.toList)).map S3Obj.size).sum) ∧
    spCalculateFolderSize
      [(true, [SPItem.file 2, SPItem.folder [(true, [SPItem.file 3])]])] =
      (spDescendantSizes
        [(true, [SPItem.file 2, SPItem.folder [(true, [SPItem.file 3])]])]).sum ∧
    spCalculateFolderSize [(true, [SPItem.file 2]), (false, [SPItem.file 3])] ≤
      (spDescendantSizes
        [(true, [SPItem.file 2]), (false, [SPItem.file 3])]).sum := by
  have h := c1_directory_size "b" []
    [S3Obj.mk "a/x" 3, S3Obj.mk "a/y" 4, S3Obj.mk "b.txt" 5]
    [S3Obj.mk "b.txt" 5]
    (fun _ => [[S3Obj.mk "a/x" 3], [S3Obj.mk "a/y" 4]]) (fun _ => [])
    "a/" "c/" (by decide) (by decide) (by decide)
    [(true, [SPItem.file 2, SPItem.folder [(true, [SPItem.file 3])]])]
    [(true, [SPItem.file 2]), (false, [SPItem.file 3])]
    (by simp [spAllFetchesOk, spPageOk])
  exact ⟨h.1, h.2.2.1, h.2.2.2⟩

/-- Claim C8: in discovery mode, one root's failing scan is isolated:
the records of every other bucket (or SharePoint site) are still
returned, in order, and no exception propagates (the loop's result is a
plain list). -/
theorem c8_isolation (pre post : List String) (b : String)
    (scan scanSp : String → Except Unit (List FileMetadata))
    (hb : scan b = Except.error ())
    (hsp : scanSp b = Except.error ()) :
    s3DiscoveryScan (pre ++ b :: post) scan =
      s3DiscoveryScan pre scan ++ s3DiscoveryScan post scan ∧
    spDiscoveryScan (pre ++ b :: post) scanSp =
      spDiscoveryScan pre scanSp ++ spDiscoveryScan post scanSp := by
  constructor
  · rw [s3DiscoveryScan_eq, s3DiscoveryScan_eq, s3DiscoveryScan_eq]
    simp [hb, Except.toOption]
  · rw [spDiscoveryScan_eq, spDiscoveryScan_eq, spDiscoveryScan_eq]
    simp [hsp, Except.toOption]

theorem c8_witness :
    (fun (scan : String → Except Unit (List FileMetadata)) =>
      s3DiscoveryScan ["b1", "b2", "b3"] scan =
        s3DiscoveryScan ["b1"] scan ++ s3DiscoveryScan ["b3"] scan)
      (fun b => if b = "b2" then Except.error () else Except.ok []) := by
  exact (c8_isolation ["b1"] ["b3"] "b2"
    (fun b => if b = "b2" then Except.error () else Except.ok [])
    (fun b => if b = "b2" then Except.error () else Except.ok [])
    rfl rfl).1

/-- Claim C9: when root enumeration fails (zero reachable roots),
discovery-mode `list_objects` returns the empty record list and raises
nothing, for S3 buckets, Azure storage accounts and SharePoint sites. -/
theorem c9_zero_roots (scan perAccount scanSite :
    String → Except Unit (List FileMetadata)) :
    s3DiscoveryScan (s3ListBuckets (Except.error ())) scan = [] ∧
    azureDiscoveryScan (azureListStorageAccounts (Except.error ())) perAccount
      = [] ∧
    spDiscoveryScan [] scanSite = [] :=
  ⟨rfl, rfl, rfl⟩

/-- Claim C10: `_parse_path` round-trip — the `s3://{bucket}/` URI
emitted by `list_objects` parses back to exactly the key, and a bare
key (not carrying that scheme) is left unchanged, so both path shapes
address the same object. -/
theorem c10_parse_path (bucket key : List Char)
    (h : ("s3://".toList ++ bucket ++ "/".toList).isPrefixOf key = false) :
    s3ParsePath bucket (("s3://".toList ++ bucket ++ "/".toList) ++ key) = key ∧
    s3ParsePath bucket key = key := by
  constructor
  · rw [s3ParsePath]
    have hp : (("s3://".toList ++ bucket ++ "/".toList)).isPrefixOf
        (("s3://".toList ++ bucket ++ "/".toList) ++ key) = true := by
      rw [ List.isPrefixOf_iff_prefix]
      exact List.prefix_append _ _
    simp only [hp, if_true]
    exact List.drop_left _ _
  · rw [s3ParsePath]
    simp only [h]
    rfl

theorem c10_witness :
    s3ParsePath "b".toList (("s3://".toList ++ "b".toList ++ "/".toList)
      ++ "k".toList) = "k".toList ∧
    s3ParsePath "b".toList "k".toList = "k".toList :=
  c10_parse_path "b".toList "k".toList (by decide)

/-- Claim C2 counterexample: in `AzureConnector.list_objects` the POSIX
ACL owner overrides the tag-derived owner with no sentinel check, so an
ACL owner equal to the reserved `$superuser` sentinel IS selected even
when an object-level tag owner is available — contradicting the claim
that the sentinel is never selected. -/
theorem c2_counterexample :
    azureListObjectsOwner [("owner", "bob")] [] [] (some (some "$superuser")) =
      some "$superuser" := by
  decide

/-- Claim C2 (amended): in `get_metadata` the POSIX ACL is never
consulted, and the chain is object tag owner, then container metadata
owner, then account tag owner, then `null` (a tag owner equal to the
sentinel is passed over); in `list_objects` a successfully read ACL
owner always wins, with no sentinel filtering. -/
theorem c2_owner_precedence (b c d a : String)
    (blobTags blobMeta accountTags : List (String × String))
    (hb : b ≠ "") (hb' : b ≠ "$superuser")
    (hc : c ≠ "") (hc' : c ≠ "$superuser")
    (hd : d ≠ "") (ha : a ≠ "") :
    azureGetMetadataOwner (some [("owner", b)]) (some [("owner", c)])
      (some [("owner", d)]) = some b ∧
    azureGetMetadataOwner (some []) (some [("owner", c)])
      (some [("owner", d)]) = some c ∧
    azureGetMetadataOwner (some []) (some []) (some [("owner", d)]) = some d ∧
    azureGetMetadataOwner (some []) (some []) (some []) = none ∧
    azureListObjectsOwner blobTags blobMeta accountTags (some (some a)) =
      some a := by
  refine ⟨?_, ?_, ?_, ?_, ?_⟩
  · simp [azureGetMetadataOwner, dictLookup, pyOr, pyFalsy, hb, hb']
  · simp [azureGetMetadataOwner, dictLookup, pyOr, pyFalsy, hc, hc']
  · simp [azureGetMetadataOwner, dictLookup, pyOr, pyFalsy, hd]
  · simp [azureGetMetadataOwner, dictLookup, pyOr, pyFalsy]
  · simp [azureListObjectsOwner, pyOr, pyFalsy, ha]

theorem c2_witness :
    (azureGetMetadataOwner (some [("owner", "bee")]) (some [("owner", "cee")])
      (some [("owner", "dee")]) = some "bee" ∧
    azureGetMetadataOwner (some []) (some [("owner", "cee")])
      (some [("owner", "dee")]) = some "cee" ∧
    azureGetMetadataOwner (some []) (some []) (some [("owner", "dee")]) =
      some "dee" ∧
    azureGetMetadataOwner (some []) (some []) (some []) = none ∧
    azureListObjectsOwner [("x", "y")] [] [] (some (some "ay")) = some "ay") :=
  c2_owner_precedence "bee" "cee" "dee" "ay" [("x", "y")] [] []
    (by decide) (by decide) (by decide) (by decide) (by decide) (by decide)

/-- Claim C3 counterexample: the merged tag map of a file record in
`AzureConnector.list_objects` is built from account tags and blob tags
only; a non-colliding container-level key (`"ckey"`, present in the
container's metadata in the backend state) does not appear in the
merged map, contradicting the three-level merge. -/
theorem c3_counterexample :
    azureListFileTags
      { accountTags := [("ak", "av")],
        containerMeta := [("ckey", "cv")],
        blobTags := [("bk", "bv")] } = [("ak", "av"), ("bk", "bv")] ∧
    dictLookup (azureListFileTags
      { accountTags := [("ak", "av")],
        containerMeta := [("ckey", "cv")],
        blobTags := [("bk", "bv")] }) "ckey" = none := by
  exact ⟨rfl, rfl⟩

/-- Claim C3 (amended): each merge site combines two levels, not three,
later overwriting earlier on key collision with all non-colliding keys
kept: `S3Connector.get_metadata` merges bucket tags then object tags
(no account level), and `AzureConnector.list_objects` merges account
tags then blob tags (no container level). -/
theorem c3_tag_merge (path : String) (contentLength : Nat)
    (lastModified contentType etag : Option String)
    (bucketSet objSet : List (String × String))
    (acl : Except Unit (Option String)) (sc vid mv : Val)
    (ctx ctx2 : AzureBlobCtx) (k : String)
    (hne : ctx.blobTags.isEmpty = false)
    (he : ctx2.blobTags.isEmpty = true) :
    (s3GetMetadata path contentLength lastModified contentType etag
      (Except.ok bucketSet) (Except.ok objSet) acl sc vid mv).tags =
      dictUpdate (tagsFromTagSet bucketSet) (tagsFromTagSet objSet) ∧
    dictLookup (dictUpdate (tagsFromTagSet bucketSet) (tagsFromTagSet objSet)) k
      = (dictLookup (tagsFromTagSet objSet) k).or
          (dictLookup (tagsFromTagSet bucketSet) k) ∧
    dictLookup (azureListFileTags ctx) k =
      (dictLookup ctx.blobTags k).or (dictLookup ctx.accountTags k) ∧
    azureListFileTags ctx2 = ctx2.accountTags := by
  refine ⟨rfl, dictLookup_dictUpdate _ _ _, ?_, ?_⟩
  · rw [azureListFileTags, if_neg (by simp [hne])]
    exact dictLookup_dictUpdate _ _ _
  · rw [azureListFileTags, if_pos (by simp [he])]

theorem c3_witness :
    ((s3GetMetadata "p" 1 none none none
      (Except.ok [("env", "dev"), ("owner", "acct")])
      (Except.ok [("owner", "obj")]) (Except.error ())
      Val.null Val.null Val.null).tags =
      dictUpdate (tagsFromTagSet [("env", "dev"), ("owner", "acct")])
        (tagsFromTagSet [("owner", "obj")]) ∧
    dictLookup (dictUpdate (tagsFromTagSet [("env", "dev"), ("owner", "acct")])
      (tagsFromTagSet [("owner", "obj")])) "owner" =
      (dictLookup (tagsFromTagSet [("owner", "obj")]) "owner").or
        (dictLookup (tagsFromTagSet [("env", "dev"), ("owner", "acct")]) "owner") ∧
    dictLookup (azureListFileTags
      { accountTags := [("ak", "av")], containerMeta := [],
        blobTags := [("bk", "bv")] }) "owner" =
      (dictLookup [("bk", "bv")] "owner").or
        (dictLookup [("ak", "av")] "owner") ∧
    azureListFileTags
      { accountTags := [("ak2", "av2")], containerMeta := [],
        blobTags := [] } = [("ak2", "av2")]) :=
  c3_tag_merge "p" 1 none none none [("env", "dev"), ("owner", "acct")]
    [("owner", "obj")] (Except.error ()) Val.null Val.null Val.null
    { accountTags := [("ak", "av")], containerMeta := [],
      blobTags := [("bk", "bv")] }
    { accountTags := [("ak2", "av2")], containerMeta := [],
      blobTags := [] } "owner" (by decide) (by decide)

/-- Claim C5 counterexample: the synthetic per-discovered-root record
that Azure discovery emits has kind `"storage_account"`, which is not
in the claimed enumeration `{file, directory, account_root}` (the
string `"account_root"` occurs nowhere in the code). -/
theorem c5_counterexample :
    (azureAccountRecord "acct1" [] "eastus" "rg1").type = "storage_account" ∧
    ("storage_account" ∈ ["file", "directory", "account_root"] → False) := by
  exact ⟨rfl, by decide⟩

/-- Claim C5 (amended): every record emitted by the embedded record
constructors has kind in `{file, directory, storage_account}`, and the
synthetic per-discovered-root record has kind `storage_account`. -/
theorem c5_kinds (bucket pfx : String)
    (tagFetch : Except Unit (List (String × String)))
    (resp : S3ListResponse) (paginate : String → List (List S3Obj))
    (siteId driveId name : String) (item : SPItem)
    (user lastModified etag : Option String)
    (container bname dname : String) (size : Nat) (ctx : AzureBlobCtx)
    (blobMeta : List (String × String)) (aclOwner : Option (Option String))
    (descendants : List Nat) (folderOwner : Option String)
    (folderTags accTags : List (String × String))
    (lm2 et2 : Option String) (acct loc rg : String) :
    (s3ListObjects bucket pfx tagFetch resp paginate).all
      (fun r => ["file", "directory", "storage_account"].contains r.type) = true ∧
    ["file", "directory", "storage_account"].contains
      (spMapItemToMetadata siteId driveId name item user lastModified etag).type
      = true ∧
    (azureFileRecord container bname size ctx blobMeta aclOwner lm2 et2).type
      = "file" ∧
    (azureDirRecord container dname descendants folderOwner folderTags lm2).type
      = "directory" ∧
    (azureAccountRecord acct accTags loc rg).type = "storage_account" := by
  refine ⟨?_, ?_, rfl, rfl, rfl⟩
  · rw [List.all_eq_true]
    intro r hr
    rw [s3ListObjects] at hr
    rcases List.mem_append.mp hr with h | h
    · obtain ⟨e, _, rfl⟩ := List.mem_map.mp h
      rfl
    · obtain ⟨fk, _, rfl⟩ := List.mem_map.mp h
      rfl
  · cases item <;> rfl

/-- Claim C6 counterexample: the owner fallback in
`S3Connector.list_objects` requires the exact key `"owner"` — a bucket
tag map whose only owner-like key is `"Owner"` (trimmed lowercase form
`"owner"`) yields no tag-derived owner there, contradicting
case-insensitive matching. -/
theorem c6_counterexample :
    s3FileOwner none [("Owner", "bob")] = none ∧
    strLower (strStrip "Owner") = "owner" ∧
    getOwnerFromTags [("Owner", "bob")] = some "bob" := by
  refine ⟨by decide, by decide, by decide⟩

/-- Claim C6 (amended): the case-insensitive, whitespace-trimmed
matching of the reserved `owner` key is implemented by the helper
`BaseConnector._get_owner_from_tags` (first matching entry wins, no
match gives `None`); the fallback inside `S3Connector.list_objects`
instead consults bucket tags under the exact key `"owner"` (keys are
stripped when the map is built but not lowercased). -/
theorem c6_owner_key (k v v2 : String)
    (rest tags tags2 tags3 : List (String × String))
    (hk : strLower (strStrip k) = "owner")
    (hnone : ∀ p ∈ tags, strLower (strStrip p.1) ≠ "owner")
    (hv : dictLookup tags2 "owner" = some v2)
    (h3 : ∀ p ∈ tags3, p.1 ≠ "owner") :
    getOwnerFromTags ((k, v) :: rest) = some v ∧
    getOwnerFromTags tags = none ∧
    s3FileOwner none tags2 = some v2 ∧
    s3FileOwner none tags3 = none := by
  refine ⟨?_, getOwnerFromTags_eq_none hnone, ?_, ?_⟩
  · rw [getOwnerFromTags, if_pos hk]
  · rw [s3FileOwner, if_pos (by simp [pyFalsy, hv]), hv]
  · rw [s3FileOwner,
      if_neg (by simp [dictLookup_eq_none_of_ne h3])]

theorem c6_witness :
    (getOwnerFromTags [(" OWNER ", "alice"), ("env", "dev")] = some "alice" ∧
    getOwnerFromTags [("env", "dev")] = none ∧
    s3FileOwner none [("owner", "carol")] = some "carol" ∧
    s3FileOwner none [("Owner", "bob")] = none) :=
  c6_owner_key " OWNER " "alice" "carol" [("env", "dev")] [("env", "dev")]
    [("owner", "carol")] [("Owner", "bob")]
    (by decide) (by decide) (by decide) (by decide)

/-- Claim C7: failures of tag, ACL or account-property reads never
abort and never raise: the embedded `list_objects` and `get_metadata`
are total functions of the read outcomes, a failed bucket-tag read
still yields the same number of records (all with empty tag maps), and
`get_metadata` with every auxiliary read failing yields a record with
empty tags and a null owner. -/
theorem c7_degrade (bucket pfx : String) (ts : List (String × String))
    (resp : S3ListResponse) (paginate : String → List (List S3Obj))
    (path : String) (contentLength : Nat)
    (lastModified contentType etag : Option String)
    (sc vid mv : Val) :
    (s3ListObjects bucket pfx (Except.error ()) resp paginate).length =
      (s3ListObjects bucket pfx (Except.ok ts) resp paginate).length ∧
    (s3ListObjects bucket pfx (Except.error ()) resp paginate).all
      (fun r => r.tags.isEmpty) = true ∧
    (s3GetMetadata path contentLength lastModified contentType etag
      (Except.error ()) (Except.error ()) (Except.error ()) sc vid mv).tags
      = [] ∧
    (s3GetMetadata path contentLength lastModified contentType etag
      (Except.error ()) (Except.error ()) (Except.error ()) sc vid mv).owner
      = none := by
  refine ⟨?_, ?_, rfl, rfl⟩
  · simp [s3ListObjects]
  · rw [List.all_eq_true]
    intro r hr
    rw [s3ListObjects] at hr
    rcases List.mem_append.mp hr with h | h
    · obtain ⟨e, _, rfl⟩ := List.mem_map.mp h
      rfl
    · obtain ⟨fk, _, rfl⟩ := List.mem_map.mp h
      rfl

theorem mem_baseDict_keys (m : FileMetadata) :
    ∀ p ∈ m.baseDict, p.1 ∈ baseKeys := by
  intro p hp
  simp only [FileMetadata.baseDict, List.mem_cons, List.not_mem_nil,
    or_false] at hp
  rcases hp with rfl | rfl | rfl | rfl | rfl | rfl | rfl | rfl | rfl | rfl <;>
    simp [baseKeys]

theorem valTags_map (ts : List (String × String)) :
    valTags (ts.map (fun p => (p.1, Val.str p.2))) = some ts := by
  induction ts with
  | nil => rfl
  | cons p rest ih => simp [valTags, ih]

/-- With `extra_metadata` keys disjoint from the fixed keys, `to_dict`
is the filtered base entries followed by the filtered extra entries. -/
theorem to_dict_eq_of_disjoint (m : FileMetadata)
    (hdisj : ∀ p ∈ m.extra_metadata, p.1 ∉ baseKeys) :
    m.to_dict = m.baseDict.filter (fun p => ! p.2.isNull) ++
      m.extra_metadata.filter (fun p => ! p.2.isNull) := by
  by_cases hE : m.extra_metadata.isEmpty
  · have hnil : m.extra_metadata = [] := by
      cases h : m.extra_metadata with
      | nil => rfl
      | cons q qs => rw [h] at hE; simp [List.isEmpty] at hE
    simp [FileMetadata.to_dict, hE, hnil]
  · have h₁ : ∀ p ∈ m.baseDict, dictLookup m.extra_metadata p.1 = none := by
      intro p hp
      exact dictLookup_eq_none_of_ne
        (fun q hq heq => hdisj q hq (heq ▸ mem_baseDict_keys m p hp))
    have h₂ : ∀ p ∈ m.extra_metadata, dictLookup m.baseDict p.1 = none := by
      intro p hp
      exact dictLookup_eq_none_of_ne
        (fun q hq heq => hdisj p hp (heq ▸ mem_baseDict_keys m q hq))
    simp only [FileMetadata.to_dict, hE, if_false, Bool.false_eq_true]
    rw [dictUpdate_of_disjoint h₁ h₂, List.filter_append]

/-- Record whose `extra_metadata` hijacks the reserved key `"path"`. -/
def c4r1 : FileMetadata :=
  { path := "a", type := "file", size_bytes := 0, last_modified := none,
    source := "s3", extra_metadata := [("path", Val.str "b")] }

/-- Record with path `"b"` and no extension data. -/
def c4r2 : FileMetadata :=
  { path := "b", type := "file", size_bytes := 0, last_modified := none,
    source := "s3" }

/-- Claim C4 counterexample: two different records serialize to the
same flat output (flattening `extra_metadata` overwrites the base
`path` entry), so no parser can make the round trip field-for-field for
every record; moreover the key set of the flat form is not the claimed
field set — tags appear under `"tag"`, `None`-valued fields are dropped
and no `extra_metadata` key exists. -/
theorem c4_counterexample :
    FileMetadata.to_dict c4r1 = FileMetadata.to_dict c4r2 ∧ c4r1 ≠ c4r2 ∧
    (FileMetadata.to_dict c4r2).map Prod.fst =
      ["path", "type", "size_bytes", "source", "tag"] := by
  refine ⟨rfl, ?_, rfl⟩
  intro h
  exact absurd (congrArg FileMetadata.path h) (by decide)

set_option maxHeartbeats 3200000 in
/-- Claim C4 (amended): `to_dict` emits the fixed fields (tags under
the key `"tag"`), flattens `extra_metadata` into the top level and
drops `None`-valued entries; parsing the flat form back recovers the
record field-for-field provided the `extra_metadata` keys avoid the
fixed keys and its values are non-null. -/
theorem c4_round_trip (m : FileMetadata)
    (hdisj : ∀ p ∈ m.extra_metadata, p.1 ∉ baseKeys)
    (hnn : ∀ p ∈ m.extra_metadata, p.2.isNull = false) :
    FileMetadata.from_dict (FileMetadata.to_dict m) = some m := by
  have hext : m.extra_metadata.filter (fun p => ! p.2.isNull) =
      m.extra_metadata :=
    List.filter_eq_self.mpr (fun p hp => by rw [hnn p hp]; rfl)
  have hex : ∀ k ∈ baseKeys, dictLookup m.extra_metadata k = none :=
    fun k hk => dictLookup_eq_none_of_ne
      (fun q hq heq => hdisj q hq (heq ▸ hk))
  have hpath := hex "path" (by simp [baseKeys])
  have htype := hex "type" (by simp [baseKeys])
  have hsize := hex "size_bytes" (by simp [baseKeys])
  have hlm := hex "last_modified" (by simp [baseKeys])
  have hsrc := hex "source" (by simp [baseKeys])
  have how := hex "owner" (by simp [baseKeys])
  have hla := hex "last_accessed" (by simp [baseKeys])
  have hct := hex "content_type" (by simp [baseKeys])
  have het := hex "etag" (by simp [baseKeys])
  have htag := hex "tag" (by simp [baseKeys])
  have hkeep : m.extra_metadata.filter (fun p => ! baseKeys.contains p.1) =
      m.extra_metadata :=
    List.filter_eq_self.mpr (fun p hp => by simp [hdisj p hp])
  have hnb : ∀ (a : String) (b : Val), (a, b) ∈ m.extra_metadata →
      ¬a = "path" ∧ ¬a = "type" ∧ ¬a = "size_bytes" ∧
      ¬a = "last_modified" ∧ ¬a = "source" ∧ ¬a = "owner" ∧
      ¬a = "last_accessed" ∧ ¬a = "content_type" ∧ ¬a = "etag" ∧
      ¬a = "tag" := by
    intro a b hab
    have hh := hdisj (a, b) hab
    simpa [baseKeys] using hh
  rw [to_dict_eq_of_disjoint m hdisj, hext]
  obtain ⟨p, t, sz, lm, src, ow, la, ct, et, tg, ex⟩ := m
  simp only at hpath htype hsize hlm hsrc how hla hct het htag hkeep hnb
  cases lm <;> cases ow <;> cases la <;> cases ct <;> cases et <;>
    (simp [FileMetadata.from_dict, FileMetadata.baseDict, isoOrNull,
      strOrNull, Val.isNull, List.filter, dictLookup_append, dictLookup,
      optStrField, valStr, valNat, valTags_map, hpath, htype, hsize, hlm,
      hsrc, how, hla, hct, het, htag, hkeep, List.filter_append, baseKeys,
      Option.bind] <;> exact fun a b hab => hnb a b hab)

theorem c4_witness :
    FileMetadata.from_dict (FileMetadata.to_dict
      { path := "s3://b/k", type := "file", size_bytes := 3,
        last_modified := some "2024-01-01T00:00:00", source := "s3",
        owner := some "alice", etag := some "et1",
        tags := [("env", "dev")],
        extra_metadata := [("storage_class", Val.str "STANDARD")] }) =
    some
      { path := "s3://b/k", type := "file", size_bytes := 3,
        last_modified := some "2024-01-01T00:00:00", source := "s3",
        owner := some "alice", etag := some "et1",
        tags := [("env", "dev")],
        extra_metadata := [("storage_class", Val.str "STANDARD")] } :=
  c4_round_trip _ (by decide) (by decide)
